import Mathlib

set_option maxHeartbeats 1000000

/-
Verification development for the pyplutchik flower-rendering library
(pyplutchik.py). Two layers are modelled:

  * a composition/trace layer over exact rationals, recording which drawing
    operations plutchik() appends to the Axes and which Python exception (if
    any) it raises, following the control flow of plutchik(),
    _check_scores_kind(), _draw_emotion_petal() and _draw_dyad_petal();

  * a geometry layer over the reals, modelling the shapely constructions of
    _rotate_point(), _petal_shape_emotion(), _outer_border() and
    _petal_circle(): a buffered point is an (ideal) closed disk and a petal
    is the intersection of two such disks.
-/

-- A score value from the input dictionary: a Python scalar or a 3-tuple
-- (the only iterable shape the drawing code unpacks).
inductive Score
  | scalar (v : ℚ)
  | triple (a b c : ℚ)
deriving DecidableEq

-- The Python exceptions the library can raise: a generic Exception with a
-- message, the IndexError from kinds[0] on an empty list, and the TypeError
-- from comparing a tuple with a number.
inductive PyErr
  | indexError
  | typeError
  | exception (msg : String)
deriving DecidableEq

-- One drawing operation appended to the matplotlib Axes, tagged with the
-- score-set entry it belongs to. Each constructor stands for one drawing
-- call of the source: the background polar circles, the neutral central
-- circle, the spine (line, tick and labels) behind a petal, the petal lens
-- patches of _petal_shape_emotion, one intensity section of _petal_circle,
-- the stroked outline of _outer_border, the dyad spine with its bicolor arc,
-- the two half-petal fills of _petal_shape_dyad, the family-level text in
-- the central disk, and the dotted track connecting the dyad arcs.
inductive Op
  | polarCoords
  | neutralCircle
  | spineEmotion (emotion : String)
  | petalEmotion (emotion : String)
  | bandCircle (emotion : String)
  | border (name : String)
  | spineDyad (dyad : String)
  | dyadFill (dyad : String)
  | levelMark
  | ghostCircle
deriving DecidableEq

-- emo_params: color, angle (in degrees, kept exact as a rational) and the
-- constant kind tag 0, for each of the eight base emotions; any other name
-- raises Exception.
def emo_params (emotion : String) : Except PyErr (String × ℚ × ℕ) :=
  match emotion with
  | "joy" => .ok ("gold", 0, 0)
  | "trust" => .ok ("olivedrab", -45, 0)
  | "fear" => .ok ("forestgreen", -90, 0)
  | "surprise" => .ok ("skyblue", -135, 0)
  | "sadness" => .ok ("dodgerblue", -180, 0)
  | "disgust" => .ok ("slateblue", -225, 0)
  | "anger" => .ok ("orangered", -270, 0)
  | "anticipation" => .ok ("darkorange", -315, 0)
  | _ => .error (.exception ("Bad input: " ++ emotion ++ " is not an accepted emotion.\n                        Must be one of \x27joy\x27, \x27trust\x27, \x27fear\x27, \x27surprise\x27, \x27sadness\x27, \x27disgust\x27, \x27anger\x27, \x27anticipation\x27"))

-- dyad_params: constituent emotions, colormap, angle (degrees, exact
-- rational: -45/2 is kept as such) and family level for each of the 28
-- dyads; any other name raises Exception.
def dyad_params (dyad : String) : Except PyErr (List String × List String × ℚ × ℕ) :=
  match dyad with
  | "love" => .ok (["joy", "trust"], ["gold", "olivedrab"], -45 / 2, 1)
  | "submission" => .ok (["trust", "fear"], ["olivedrab", "forestgreen"], -45 / 2 + -45, 1)
  | "alarm" => .ok (["fear", "surprise"], ["forestgreen", "skyblue"], -45 / 2 + -90, 1)
  | "disappointment" => .ok (["surprise", "sadness"], ["skyblue", "dodgerblue"], -45 / 2 + -135, 1)
  | "remorse" => .ok (["sadness", "disgust"], ["dodgerblue", "slateblue"], -45 / 2 + -180, 1)
  | "contempt" => .ok (["disgust", "anger"], ["slateblue", "orangered"], -45 / 2 + -225, 1)
  | "aggressiveness" => .ok (["anger", "anticipation"], ["orangered", "darkorange"], -45 / 2 + -270, 1)
  | "optimism" => .ok (["anticipation", "joy"], ["darkorange", "gold"], -45 / 2 + -315, 1)
  | "guilt" => .ok (["joy", "fear"], ["gold", "forestgreen"], -45, 2)
  | "curiosity" => .ok (["trust", "surprise"], ["olivedrab", "skyblue"], -90, 2)
  | "despair" => .ok (["fear", "sadness"], ["forestgreen", "dodgerblue"], -135, 2)
  | "unbelief" => .ok (["surprise", "disgust"], ["skyblue", "slateblue"], -180, 2)
  | "envy" => .ok (["sadness", "anger"], ["dodgerblue", "orangered"], -225, 2)
  | "cynism" => .ok (["disgust", "anticipation"], ["slateblue", "darkorange"], -270, 2)
  | "pride" => .ok (["anger", "joy"], ["orangered", "gold"], -315, 2)
  | "hope" => .ok (["anticipation", "trust"], ["darkorange", "olivedrab"], 0, 2)
  | "delight" => .ok (["joy", "surprise"], ["gold", "skyblue"], -45 / 2 + -45, 3)
  | "sentimentality" => .ok (["trust", "sadness"], ["olivedrab", "dodgerblue"], -45 / 2 + -90, 3)
  | "shame" => .ok (["fear", "disgust"], ["forestgreen", "slateblue"], -45 / 2 + -135, 3)
  | "outrage" => .ok (["surprise", "anger"], ["skyblue", "orangered"], -45 / 2 + -180, 3)
  | "pessimism" => .ok (["sadness", "anticipation"], ["dodgerblue", "darkorange"], -45 / 2 + -225, 3)
  | "morbidness" => .ok (["disgust", "joy"], ["slateblue", "gold"], -45 / 2 + -270, 3)
  | "dominance" => .ok (["anger", "trust"], ["orangered", "olivedrab"], -45 / 2 + -315, 3)
  | "anxiety" => .ok (["anticipation", "fear"], ["darkorange", "forestgreen"], -45 / 2, 3)
  | "bittersweetness" => .ok (["joy", "sadness"], ["gold", "dodgerblue"], 0, 4)
  | "ambivalence" => .ok (["trust", "disgust"], ["olivedrab", "slateblue"], -45, 4)
  | "frozenness" => .ok (["fear", "anger"], ["forestgreen", "orangered"], -90, 4)
  | "confusion" => .ok (["surprise", "anticipation"], ["skyblue", "darkorange"], -135, 4)
  | _ => .error (.exception ("Bad input: \x27" ++ dyad ++ "\x27 is not an accepted name for a dyad."))

-- The body of the loop in _check_scores_kind: try emo_params(t)[2], and on
-- failure fall back to dyad_params(t)[3]; a failure of the fallback
-- propagates out of the bare except.
def classifyTag (t : String) : Except PyErr ℕ :=
  match emo_params t with
  | .ok p => .ok p.2.2
  | .error _ =>
    match dyad_params t with
    | .ok p => .ok p.2.2.2
    | .error e => .error e

-- The kinds list accumulated over all tags, left to right; the first
-- classification failure propagates.
def classifyTags : List String → Except PyErr (List ℕ)
  | [] => .ok []
  | t :: ts =>
    match classifyTag t with
    | .error e => .error e
    | .ok k =>
      match classifyTags ts with
      | .error e => .error e
      | .ok ks => .ok (k :: ks)

-- The English name each kind digit is replaced with in the mixed-kind
-- error message.
def kindName (k : ℕ) : String :=
  if k = 0 then "emotions"
  else if k = 1 then "primary dyads"
  else if k = 2 then "secondary dyads"
  else if k = 3 then "tertiary dyads"
  else "opposite emotions"

-- Python str.replace with a single-character pattern, over the character
-- list of the string (every pattern used by _check_scores_kind is one digit).
def replaceChar (pat : Char) (rep : List Char) : List Char → List Char
  | [] => []
  | c :: cs => (if c = pat then rep else [c]) ++ replaceChar pat rep cs

-- Replace the first occurrence of a character in a character list.
def replaceFirst (pat : Char) (rep : List Char) : List Char → List Char
  | [] => []
  | c :: cs => if c = pat then rep ++ cs else c :: replaceFirst pat rep cs

def pyReplaceDigit (s : String) (pat : Char) (rep : String) : String :=
  String.mk (replaceChar pat rep.data s.data)

-- Model of " and".join(s.rsplit(",", 1)): the last comma of s, if any, is
-- replaced by " and" (the first comma of the reversed character list).
def joinAnd (s : String) : String :=
  String.mk (List.reverse (replaceFirst ',' (String.data " and").reverse s.data.reverse))

-- The message of the mixed-kind Exception, built exactly as in
-- _check_scores_kind: join the unique kind digits with ", ", replace each
-- digit by its English kind name, and turn the last ", " into " and ".
def mixedMsg (uniqueKinds : List ℕ) : String :=
  let s0 := String.intercalate ", " (uniqueKinds.map (fun a => toString a))
  let s1 := pyReplaceDigit s0 '0' "emotions"
  let s2 := pyReplaceDigit s1 '1' "primary dyads"
  let s3 := pyReplaceDigit s2 '2' "secondary dyads"
  let s4 := pyReplaceDigit s3 '3' "tertiary dyads"
  let s5 := pyReplaceDigit s4 '4' "opposite emotions"
  let s6 := joinAnd s5
  "Bad input: can\x27t draw " ++ s6 ++ " altogether. Please input only one of them as \x27scores\x27."

-- _check_scores_kind: classify every tag, and fail on mixed kinds. The
-- source computes list(set(sorted(kinds))); for the level values 0..4
-- (CPython iterates a set of small non-negative ints in ascending order)
-- this is the ascending deduplication, modelled by filtering range 5.
-- With at most one kind present, kinds[0] is read: IndexError on [].
def _check_scores_kind (tags : List String) : Except PyErr Bool :=
  match classifyTags tags with
  | .error e => .error e
  | .ok kinds =>
    let uniqueKinds := (List.range 5).filter (fun a => decide (a ∈ kinds))
    if 1 < uniqueKinds.length then
      .error (.exception (mixedMsg uniqueKinds))
    else
      match kinds with
      | [] => .error .indexError
      | k :: _ => .ok (k == 0)

-- The per-entry validity check of plutchik() (the claim side of the `if`
-- conditions at lines 1264-1269 and 1282): a scalar outside [0, 1], or a
-- 3-tuple with over-unit sum or a negative component.
def scoreInvalid : Score → Prop
  | .scalar v => 1 < v ∨ v < 0
  | .triple a b c => 1 < a + b + c ∨ a < 0 ∨ b < 0 ∨ c < 0

instance (s : Score) : Decidable (scoreInvalid s) :=
  match s with
  | .scalar v => inferInstanceAs (Decidable (1 < v ∨ v < 0))
  | .triple a b c => inferInstanceAs (Decidable (1 < a + b + c ∨ a < 0 ∨ b < 0 ∨ c < 0))

-- The validation performed on one entry of the emotions branch of
-- plutchik(): iterable scores are checked for over-unit sum or negative
-- components, scalar scores for being outside [0, 1].
def validateEmotionScore (emo : String) (s : Score) : Option PyErr :=
  match s with
  | .triple a b c =>
    if 1 < a + b + c ∨ a < 0 ∨ b < 0 ∨ c < 0 then
      some (.exception ("Bad input for `" ++ emo ++ "`. Emotion scores array should be between 0 and 1."))
    else none
  | .scalar v =>
    if 1 < v ∨ v < 0 then
      some (.exception ("Bad input for `" ++ emo ++ "`. Emotion scores array should sum to between 0 and 1."))
    else none

-- The drawing operations of _draw_emotion_petal for one emotion entry: the
-- spine when coordinates are shown, the petal lens, and the outer border;
-- a 3-tuple additionally draws one _petal_circle section per nonzero
-- radius (a+b and a; _petal_circle is a no-op on a falsy radius).
def _draw_emotion_petal (emotion : String) (emotion_score : Score) (show_coordinates : Bool) : List Op :=
  match emotion_score with
  | .scalar _ =>
    (if show_coordinates then [Op.spineEmotion emotion] else []) ++
    [Op.petalEmotion emotion, Op.border emotion]
  | .triple a b _ =>
    (if show_coordinates then [Op.spineEmotion emotion] else []) ++
    [Op.petalEmotion emotion] ++
    (if a + b = 0 then [] else [Op.bandCircle emotion]) ++
    (if a = 0 then [] else [Op.bandCircle emotion]) ++
    [Op.border emotion]

-- The drawing operations of _draw_dyad_petal for one dyad entry: the dyad
-- spine is drawn first whenever coordinates are shown; _petal_shape_dyad
-- returns early (no fills) when the score is 0; _outer_border is drawn
-- unconditionally.
def _draw_dyad_petal (dyad : String) (dyad_score : ℚ) (show_coordinates : Bool) : List Op :=
  (if show_coordinates then [Op.spineDyad dyad] else []) ++
  (if dyad_score = 0 then [] else [Op.dyadFill dyad]) ++
  [Op.border dyad]

-- Python str.lower over the character list (all registry names are ASCII).
def pyLower (s : String) : String := String.mk (s.data.map Char.toLower)

-- One step of building a Python dict from key/value pairs: an existing key
-- is updated in place, a new key is appended (insertion order).
def pyDictInsert (d : List (String × Score)) (k : String) (v : Score) : List (String × Score) :=
  if d.any (fun p => p.1 == k) then
    d.map (fun p => if p.1 = k then (k, v) else p)
  else d ++ [(k, v)]

-- The dict comprehension {key.lower(): val for key, val in emotions.items()}
-- of plutchik(), preserving iteration (insertion) order.
def lowerDict (scores : List (String × Score)) : List (String × Score) :=
  scores.foldl (fun d p => pyDictInsert d (pyLower p.1) p.2) []

-- The emotions loop of plutchik(): entries in dict order; each entry is
-- validated (an invalid one raises, keeping the operations drawn so far)
-- and then drawn by _draw_emotion_petal.
def emoLoop (sc : Bool) : List (String × Score) → List Op × Option PyErr
  | [] => ([], none)
  | (emo, s) :: rest =>
    match validateEmotionScore emo s with
    | some e => ([], some e)
    | none =>
      let res := emoLoop sc rest
      (_draw_emotion_petal emo s sc ++ res.1, res.2)

-- The dyads loop of plutchik(): `dyads[dyad] > 1` on a tuple raises
-- TypeError; a scalar outside [0, 1] raises the named Exception; a valid
-- entry is drawn by _draw_dyad_petal.
def dyadLoop (sc : Bool) : List (String × Score) → List Op × Option PyErr
  | [] => ([], none)
  | (dy, s) :: rest =>
    match s with
    | .triple _ _ _ => ([], some PyErr.typeError)
    | .scalar v =>
      if 1 < v ∨ v < 0 then
        ([], some (PyErr.exception ("Bad input for `" ++ dy ++ "`. Dyads scores array should sum to between 0 and 1.")))
      else
        let res := dyadLoop sc rest
        (_draw_dyad_petal dy v sc ++ res.1, res.2)

-- plutchik(): the kind check runs first (before any Axes work); then the
-- polar background (when show_coordinates) and the neutral central circle;
-- then the emotions branch (on the lowercased dict) or the dyads branch,
-- which after a successful loop adds the family-level text in the disk and
-- the dotted ghost track. The result is the list of drawing operations in
-- the order they were appended, and the exception raised, if any.
-- The scores dict is an insertion-ordered association list; normalize only
-- rescales geometry, so it does not affect which operations are emitted.
def plutchik (scores : List (String × Score)) (show_coordinates : Bool) (normalize : Option ℚ) : List Op × Option PyErr :=
  match _check_scores_kind (scores.map Prod.fst) with
  | .error e => ([], some e)
  | .ok score_is_emotions =>
    let base := (if show_coordinates then [Op.polarCoords] else []) ++ [Op.neutralCircle]
    if score_is_emotions then
      let emotions := lowerDict scores
      if emotions.isEmpty then (base, none)
      else
        let res := emoLoop show_coordinates emotions
        (base ++ res.1, res.2)
    else
      if scores.isEmpty then (base, none)
      else
        let res := dyadLoop show_coordinates scores
        match res.2 with
        | some e => (base ++ res.1, some e)
        | none => (base ++ res.1 ++ [Op.levelMark, Op.ghostCircle], none)

-- The canonical order of the eight base emotions.
def canonicalEmotions : List String :=
  ["joy", "trust", "fear", "surprise", "sadness", "disgust", "anger", "anticipation"]

-- Projections of the registries used in claim statements.
def emoAngle (e : String) : Option ℚ :=
  match emo_params e with
  | .ok p => some p.2.1
  | .error _ => none

def dyadAngle (d : String) : Option ℚ :=
  match dyad_params d with
  | .ok p => some p.2.2.1
  | .error _ => none

def dyadLevel (d : String) : Option ℕ :=
  match dyad_params d with
  | .ok p => some p.2.2.2
  | .error _ => none

-- The entry list each branch of plutchik() iterates: the lowercased dict
-- for emotions, the scores dict itself for dyads.
def plutchikEntries (scores : List (String × Score)) (b : Bool) : List (String × Score) :=
  if b then lowerDict scores else scores

def concatMap {α β : Type} (f : α → List β) : List α → List β
  | [] => []
  | x :: xs => f x ++ concatMap f xs

-- The operations one entry contributes in the branch selected by isEmo.
def entryOps (isEmo : Bool) (sc : Bool) (p : String × Score) : List Op :=
  if isEmo then _draw_emotion_petal p.1 p.2 sc
  else
    match p.2 with
    | .scalar v => _draw_dyad_petal p.1 v sc
    | .triple _ _ _ => []

-- ==================== Geometry layer (over the reals) ====================

-- `if normalize: emotion_score /= normalize`: a float value of 0.0 is falsy
-- in Python, so only a nonzero normalize divides.
open Classical in
noncomputable def applyNormalizeR (normalize : Option ℝ) (s : ℝ) : ℝ :=
  match normalize with
  | none => s
  | some n => if n = 0 then s else s / n

-- _rotate_point: counterclockwise rotation about the origin by an angle
-- given in degrees (converted to radians internally).
noncomputable def _rotate_point (point : ℝ × ℝ) (angle : ℝ) : ℝ × ℝ :=
  (Real.cos (angle * Real.pi / 180) * point.1 - Real.sin (angle * Real.pi / 180) * point.2,
   Real.sin (angle * Real.pi / 180) * point.1 + Real.cos (angle * Real.pi / 180) * point.2)

-- Squared euclidean distance in the plane.
def sqDist (p q : ℝ × ℝ) : ℝ := (p.1 - q.1) ^ 2 + (p.2 - q.2) ^ 2

-- The ideal shape of shapely Point(c).buffer(r): the closed disk of radius
-- r around c.
def closedDisk (c : ℝ × ℝ) (r : ℝ) : Set (ℝ × ℝ) := {p | sqDist p c ≤ r ^ 2}

-- _petal_shape_emotion, geometry only: after optional normalization, the
-- proportions h = 1*score + offset, x = height_width_ratio*score, y = h/2,
-- r = sqrt(x^2 + y^2), and the petal as the intersection of the two disks
-- of radius r around the rotated centers (x, y) and (-x, y).
noncomputable def _petal_shape_emotion (emotion_score angle height_width_ratio offset : ℝ)
    (normalize : Option ℝ) : Set (ℝ × ℝ) :=
  let s := applyNormalizeR normalize emotion_score
  let h := 1 * s + offset
  let x := height_width_ratio * s
  let y := h / 2
  let r := Real.sqrt (x ^ 2 + y ^ 2)
  closedDisk (_rotate_point (x, y) angle) r ∩ closedDisk (_rotate_point (-x, y) angle) r

-- _outer_border draws the stroked outline of the very same lens, built by
-- the same computation.
noncomputable def _outer_border (emotion_score angle height_width_ratio offset : ℝ)
    (normalize : Option ℝ) : Set (ℝ × ℝ) :=
  let s := applyNormalizeR normalize emotion_score
  let h := 1 * s + offset
  let x := height_width_ratio * s
  let y := h / 2
  let r := Real.sqrt (x ^ 2 + y ^ 2)
  closedDisk (_rotate_point (x, y) angle) r ∩ closedDisk (_rotate_point (-x, y) angle) r

-- _petal_circle: nothing is drawn for a falsy radius; otherwise the section
-- is the intersection of the petal with the disk of radius radius + offset
-- around the origin (radius divided first when normalize is truthy).
open Classical in
noncomputable def _petal_circle (petal : Set (ℝ × ℝ)) (radius offset : ℝ)
    (normalize : Option ℝ) : Option (Set (ℝ × ℝ)) :=
  if radius = 0 then none
  else
    let r := applyNormalizeR normalize radius
    some (petal ∩ closedDisk (0, 0) (r + offset))

-- The petal lens exactly as the spec words it (section 4.1 petal_lens),
-- for the refinement half of claim C1: two circles of equal radius
-- r = sqrt(x^2 + y^2) where h = score + offset, x = height_width_ratio *
-- score, y = h/2, centered at rotate((x, y), angle) and rotate((-x, y),
-- angle); the petal is the intersection of the two.
noncomputable def petal_lens_spec (score angle height_width_ratio offset : ℝ) : Set (ℝ × ℝ) :=
  let h := score + offset
  let x := height_width_ratio * score
  let y := h / 2
  let r := Real.sqrt (x ^ 2 + y ^ 2)
  closedDisk (_rotate_point (x, y) angle) r ∩ closedDisk (_rotate_point (-x, y) angle) r

-- ==================== Helper lemmas ====================

theorem strDataAppend (a b : String) : (a ++ b).data = a.data ++ b.data := rfl

theorem name_infix_msg (a b c : String) : b.data <:+: (a ++ b ++ c).data :=
  ⟨a.data, c.data, by simp [strDataAppend]⟩

theorem emo_params_kind (e : String) (p : String × ℚ × ℕ) (h : emo_params e = Except.ok p) :
    p.2.2 = 0 := by
  unfold emo_params at h
  split at h <;> first | (injection h with h2; subst h2; rfl) | (exact Except.noConfusion h)

theorem dyad_params_level (d : String) (p : List String × List String × ℚ × ℕ)
    (h : dyad_params d = Except.ok p) : 0 < p.2.2.2 ∧ p.2.2.2 < 5 := by
  unfold dyad_params at h
  split at h <;> first
    | (injection h with h2; subst h2; exact ⟨by decide, by decide⟩)
    | (exact Except.noConfusion h)

theorem classifyTag_lt5 (t : String) (k : ℕ) (h : classifyTag t = Except.ok k) : k < 5 := by
  unfold classifyTag at h
  cases he : emo_params t with
  | ok p =>
    rw [he] at h
    injection h with h2
    rw [← h2, emo_params_kind t p he]
    decide
  | error e =>
    rw [he] at h
    cases hd : dyad_params t with
    | ok p =>
      rw [hd] at h
      injection h with h2
      rw [← h2]
      exact (dyad_params_level t p hd).2
    | error e2 => rw [hd] at h; exact Except.noConfusion h

theorem classifyTags_ok (l : List String) (h : ∀ t ∈ l, ∃ k, classifyTag t = Except.ok k) :
    ∃ ks, classifyTags l = Except.ok ks := by
  induction l with
  | nil => exact ⟨[], rfl⟩
  | cons t ts ih =>
    obtain ⟨k, hk⟩ := h t (List.mem_cons_self t ts)
    obtain ⟨ks, hks⟩ := ih (fun x hx => h x (List.mem_cons_of_mem t hx))
    exact ⟨k :: ks, by simp [classifyTags, hk, hks]⟩

theorem classifyTags_mem (l : List String) (ks : List ℕ) (h : classifyTags l = Except.ok ks)
    (t : String) (ht : t ∈ l) : ∃ k ∈ ks, classifyTag t = Except.ok k := by
  induction l generalizing ks with
  | nil => simp at ht
  | cons x xs ih =>
    unfold classifyTags at h
    cases hx : classifyTag x with
    | error e => rw [hx] at h; exact Except.noConfusion h
    | ok k =>
      rw [hx] at h
      cases hxs : classifyTags xs with
      | error e => rw [hxs] at h; exact Except.noConfusion h
      | ok ks2 =>
        rw [hxs] at h
        injection h with h2
        subst h2
        rcases List.mem_cons.1 ht with h | h
        · subst h; exact ⟨k, List.mem_cons_self k ks2, hx⟩
        · obtain ⟨k2, hk2, hck⟩ := ih ks2 hxs h
          exact ⟨k2, List.mem_cons_of_mem k hk2, hck⟩

theorem mixedMsg_names_aux :
    ∀ S ∈ (List.range 5).sublists, ∀ k ∈ S, (kindName k).data <:+: (mixedMsg S).data := by decide

theorem one_lt_length_of_two_mem {α : Type} {a b : α} {l : List α}
    (hab : a ≠ b) (ha : a ∈ l) (hb : b ∈ l) : 1 < l.length := by
  match l with
  | [] => simp at ha
  | [x] =>
    simp only [List.mem_singleton] at ha hb
    exact absurd (ha.trans hb.symm) hab
  | x :: y :: t => simp only [List.length]; omega

theorem validateEmotionScore_none (e : String) (s : Score) (h : ¬ scoreInvalid s) :
    validateEmotionScore e s = none := by
  cases s with
  | scalar v =>
    simp only [scoreInvalid] at h
    simp only [validateEmotionScore, if_neg h]
  | triple a b c =>
    simp only [scoreInvalid] at h
    simp only [validateEmotionScore, if_neg h]

theorem validateEmotionScore_some (e : String) (s : Score) (h : scoreInvalid s) :
    ∃ msg, validateEmotionScore e s = some (PyErr.exception msg) ∧ e.data <:+: msg.data := by
  cases s with
  | scalar v =>
    simp only [scoreInvalid] at h
    exact ⟨_, by simp only [validateEmotionScore, if_pos h],
      name_infix_msg "Bad input for `" e "`. Emotion scores array should sum to between 0 and 1."⟩
  | triple a b c =>
    simp only [scoreInvalid] at h
    exact ⟨_, by simp only [validateEmotionScore, if_pos h],
      name_infix_msg "Bad input for `" e "`. Emotion scores array should be between 0 and 1."⟩

theorem emoLoop_err (sc : Bool) (l : List (String × Score)) (h : ∃ p ∈ l, scoreInvalid p.2) :
    ∃ k v msg, (k, v) ∈ l ∧ scoreInvalid v ∧
      (emoLoop sc l).2 = some (PyErr.exception msg) ∧ k.data <:+: msg.data := by
  induction l with
  | nil => simp at h
  | cons p rest ih =>
    obtain ⟨k0, v0⟩ := p
    by_cases hv : scoreInvalid v0
    · obtain ⟨msg, hmsg, hinf⟩ := validateEmotionScore_some k0 v0 hv
      exact ⟨k0, v0, msg, List.mem_cons_self _ _, hv, by simp only [emoLoop, hmsg], hinf⟩
    · obtain ⟨q, hq, hqv⟩ := h
      rcases List.mem_cons.1 hq with h0 | h0
      · rw [h0] at hqv; exact absurd hqv hv
      · obtain ⟨k, v, msg, hm, hiv, herr, hinf⟩ := ih ⟨q, h0, hqv⟩
        refine ⟨k, v, msg, List.mem_cons_of_mem _ hm, hiv, ?_, hinf⟩
        simp only [emoLoop, validateEmotionScore_none k0 v0 hv]
        exact herr

theorem emoLoop_ok (sc : Bool) (l : List (String × Score)) (h : ∀ p ∈ l, ¬ scoreInvalid p.2) :
    (emoLoop sc l).2 = none := by
  induction l with
  | nil => rfl
  | cons p rest ih =>
    obtain ⟨k0, v0⟩ := p
    simp only [emoLoop, validateEmotionScore_none k0 v0 (h (k0, v0) (List.mem_cons_self _ _))]
    exact ih (fun q hq => h q (List.mem_cons_of_mem _ hq))

theorem emoLoop_ops (sc : Bool) (l : List (String × Score)) (h : (emoLoop sc l).2 = none) :
    (emoLoop sc l).1 = concatMap (fun p => _draw_emotion_petal p.1 p.2 sc) l := by
  induction l with
  | nil => rfl
  | cons p rest ih =>
    obtain ⟨k0, v0⟩ := p
    cases hv : validateEmotionScore k0 v0 with
    | some e => simp only [emoLoop, hv] at h; exact absurd h (by simp)
    | none =>
      simp only [emoLoop, hv] at h ⊢
      rw [concatMap, ih h]

theorem dyadLoop_err (sc : Bool) (l : List (String × Score))
    (hscalar : ∀ p ∈ l, ∃ v, p.2 = Score.scalar v) (h : ∃ p ∈ l, scoreInvalid p.2) :
    ∃ k v msg, (k, v) ∈ l ∧ scoreInvalid v ∧
      (dyadLoop sc l).2 = some (PyErr.exception msg) ∧ k.data <:+: msg.data := by
  induction l with
  | nil => simp at h
  | cons p rest ih =>
    obtain ⟨k0, v0⟩ := p
    obtain ⟨w, hw⟩ := hscalar (k0, v0) (List.mem_cons_self _ _)
    simp only at hw
    subst hw
    by_cases hv : (1 : ℚ) < w ∨ w < 0
    · refine ⟨k0, Score.scalar w, _, List.mem_cons_self _ _, hv, ?_,
        name_infix_msg "Bad input for `" k0 "`. Dyads scores array should sum to between 0 and 1."⟩
      simp only [dyadLoop, if_pos hv]
    · obtain ⟨q, hq, hqv⟩ := h
      rcases List.mem_cons.1 hq with h0 | h0
      · rw [h0] at hqv; exact absurd hqv hv
      · obtain ⟨k, v, msg, hm, hiv, herr, hinf⟩ :=
          ih (fun r hr => hscalar r (List.mem_cons_of_mem _ hr)) ⟨q, h0, hqv⟩
        refine ⟨k, v, msg, List.mem_cons_of_mem _ hm, hiv, ?_, hinf⟩
        simp only [dyadLoop, if_neg hv]
        exact herr

theorem dyadLoop_ok (sc : Bool) (l : List (String × Score))
    (hscalar : ∀ p ∈ l, ∃ v, p.2 = Score.scalar v) (h : ∀ p ∈ l, ¬ scoreInvalid p.2) :
    (dyadLoop sc l).2 = none := by
  induction l with
  | nil => rfl
  | cons p rest ih =>
    obtain ⟨k0, v0⟩ := p
    obtain ⟨w, hw⟩ := hscalar (k0, v0) (List.mem_cons_self _ _)
    simp only at hw
    subst hw
    have hv := h (k0, Score.scalar w) (List.mem_cons_self _ _)
    simp only [scoreInvalid] at hv
    simp only [dyadLoop, if_neg hv]
    exact ih (fun r hr => hscalar r (List.mem_cons_of_mem _ hr))
      (fun r hr => h r (List.mem_cons_of_mem _ hr))

theorem dyadLoop_ops (sc : Bool) (l : List (String × Score)) (h : (dyadLoop sc l).2 = none) :
    (dyadLoop sc l).1 = concatMap (entryOps false sc) l := by
  induction l with
  | nil => rfl
  | cons p rest ih =>
    obtain ⟨k0, v0⟩ := p
    cases v0 with
    | triple a b c => simp only [dyadLoop] at h; exact absurd h (by simp)
    | scalar w =>
      by_cases hv : (1 : ℚ) < w ∨ w < 0
      · simp only [dyadLoop, if_pos hv] at h; exact absurd h (by simp)
      · simp only [dyadLoop, if_neg hv] at h ⊢
        rw [concatMap, ih h]
        rfl

theorem pyDictInsert_ne_nil (d : List (String × Score)) (k : String) (v : Score) :
    pyDictInsert d k v ≠ [] := by
  unfold pyDictInsert
  split
  · next hc =>
    cases d with
    | nil => simp at hc
    | cons p rest => simp
  · simp

theorem foldl_pyDictInsert_ne_nil (l : List (String × Score)) (d : List (String × Score))
    (hd : d ≠ []) : l.foldl (fun d p => pyDictInsert d (pyLower p.1) p.2) d ≠ [] := by
  induction l generalizing d with
  | nil => exact hd
  | cons p rest ih => exact ih _ (pyDictInsert_ne_nil _ _ _)

theorem lowerDict_ne_nil (scores : List (String × Score)) (h : scores ≠ []) :
    lowerDict scores ≠ [] := by
  cases scores with
  | nil => exact absurd rfl h
  | cons p rest =>
    unfold lowerDict
    rw [List.foldl_cons]
    exact foldl_pyDictInsert_ne_nil rest _ (pyDictInsert_ne_nil _ _ _)

theorem check_ok_ne_nil (tags : List String) (b : Bool) (h : _check_scores_kind tags = Except.ok b) :
    tags ≠ [] := by
  intro he
  subst he
  exact Except.noConfusion (h.symm.trans rfl)

theorem concatMap_entryOps_true (sc : Bool) (l : List (String × Score)) :
    concatMap (entryOps true sc) l = concatMap (fun p => _draw_emotion_petal p.1 p.2 sc) l := by
  induction l with
  | nil => rfl
  | cons p rest ih => simp only [concatMap, entryOps, if_true, ih]

theorem dyad_params_level4 (d : String) (p : List String × List String × ℚ × ℕ)
    (h : dyad_params d = Except.ok p) (h4 : p.2.2.2 = 4) :
    d = "bittersweetness" ∨ d = "ambivalence" ∨ d = "frozenness" ∨ d = "confusion" := by
  unfold dyad_params at h
  split at h <;> first
    | (injection h with h2; subst h2; simp_all)
    | (exact Except.noConfusion h)

theorem applyNormalizeR_none (s : ℝ) : applyNormalizeR none s = s := rfl

theorem sqDist_rotate (p q : ℝ × ℝ) (a : ℝ) :
    sqDist (_rotate_point p a) (_rotate_point q a) = sqDist p q := by
  have h := Real.sin_sq_add_cos_sq (a * Real.pi / 180)
  unfold sqDist _rotate_point
  dsimp only
  linear_combination ((p.1 - q.1) ^ 2 + (p.2 - q.2) ^ 2) * h

theorem rotate_origin (a : ℝ) : _rotate_point (0, 0) a = (0, 0) := by
  unfold _rotate_point
  simp

theorem mem_petal_shape (s a w o : ℝ) (p : ℝ × ℝ) :
    p ∈ _petal_shape_emotion s a w o none ↔
      (sqDist p (_rotate_point (w * s, (1 * s + o) / 2) a) ≤ (w * s) ^ 2 + ((1 * s + o) / 2) ^ 2 ∧
       sqDist p (_rotate_point (-(w * s), (1 * s + o) / 2) a) ≤ (w * s) ^ 2 + ((1 * s + o) / 2) ^ 2) := by
  have hr : Real.sqrt ((w * s) ^ 2 + ((1 * s + o) / 2) ^ 2) ^ 2
      = (w * s) ^ 2 + ((1 * s + o) / 2) ^ 2 := Real.sq_sqrt (by positivity)
  simp only [_petal_shape_emotion, applyNormalizeR_none, closedDisk,
    Set.mem_inter_iff, Set.mem_setOf_eq]
  rw [hr]

theorem petal_shape_applyNorm (score a w o : ℝ) (nrm : Option ℝ) :
    _petal_shape_emotion score a w o nrm =
      _petal_shape_emotion (applyNormalizeR nrm score) a w o none := by
  simp only [_petal_shape_emotion, applyNormalizeR_none]

-- ==================== Claim theorems ====================

/-- C1: for every emotion score s that is at least 0, angle a, height/width
ratio w and nonnegative offset o, the petal lens built by
_petal_shape_emotion is the intersection of two closed disks of equal radius
r = sqrt(x^2 + y^2) with h = s + o, x = w * s, y = h / 2, centered at
rotate((x, y), a) and rotate((-x, y), a) — exactly the lens the spec words
describe — and for s = 1 the farthest extent of the lens along the
(rotated) petal axis is at distance 1 + o from the origin. -/
theorem petal_shape_emotion_matches_spec_lens (s a w o : ℝ) (hs : 0 ≤ s) (ho : 0 ≤ o) :
    _petal_shape_emotion s a w o none = petal_lens_spec s a w o ∧
    IsGreatest {t : ℝ | _rotate_point (0, t) a ∈ _petal_shape_emotion 1 a w o none} (1 + o) := by
  refine ⟨?_, ?_, ?_⟩
  · simp only [_petal_shape_emotion, petal_lens_spec, applyNormalizeR_none, one_mul]
  · show _rotate_point (0, 1 + o) a ∈ _petal_shape_emotion 1 a w o none
    rw [mem_petal_shape]
    constructor
    · rw [sqDist_rotate]
      unfold sqDist
      dsimp only
      apply le_of_eq
      ring
    · rw [sqDist_rotate]
      unfold sqDist
      dsimp only
      apply le_of_eq
      ring
  · intro t ht
    rw [Set.mem_setOf_eq, mem_petal_shape, sqDist_rotate, sqDist_rotate] at ht
    obtain ⟨h1, h2⟩ := ht
    unfold sqDist at h1
    dsimp only at h1
    nlinarith [h1, ho, sq_nonneg (t - 1 - o), sq_nonneg (w * 1)]

/-- Witness for C1 at s = 1, a = 30, w = 2, o = 0.15. -/
theorem petal_shape_emotion_matches_spec_lens_witness :
    (0 : ℝ) ≤ 1 ∧ (0 : ℝ) ≤ 15 / 100 ∧
    (_petal_shape_emotion 1 30 2 (15 / 100) none = petal_lens_spec 1 30 2 (15 / 100) ∧
      IsGreatest {t : ℝ | _rotate_point (0, t) 30 ∈ _petal_shape_emotion 1 30 2 (15 / 100) none}
        (1 + 15 / 100)) :=
  ⟨by norm_num, by norm_num,
    petal_shape_emotion_matches_spec_lens 1 30 2 (15 / 100) (by norm_num) (by norm_num)⟩

/-- C2: for every scores mapping whose keys are all known names but span more
than one kind, plutchik raises the mixed-kind Exception before any shape is
drawn on the canvas (the operation list is empty), and the message names
every kind present among the keys. -/
theorem mixed_kind_error_names_offending_kinds (scores : List (String × Score)) (sc : Bool)
    (nrm : Option ℚ)
    (hknown : ∀ t ∈ scores.map Prod.fst, ∃ k, classifyTag t = Except.ok k)
    (hmixed : ∃ t1 ∈ scores.map Prod.fst, ∃ t2 ∈ scores.map Prod.fst, ∃ k1 k2,
      classifyTag t1 = Except.ok k1 ∧ classifyTag t2 = Except.ok k2 ∧ k1 ≠ k2) :
    ∃ msg, plutchik scores sc nrm = ([], some (PyErr.exception msg)) ∧
      ∀ t ∈ scores.map Prod.fst, ∀ k, classifyTag t = Except.ok k →
        (kindName k).data <:+: msg.data := by
  obtain ⟨ks, hks⟩ := classifyTags_ok _ hknown
  obtain ⟨t1, ht1, t2, ht2, k1, k2, hk1, hk2, hne⟩ := hmixed
  have hmem : ∀ t ∈ scores.map Prod.fst, ∀ k, classifyTag t = Except.ok k → k ∈ ks := by
    intro t ht k hk
    obtain ⟨k', hk', hck⟩ := classifyTags_mem _ _ hks t ht
    have : k' = k := by
      have := hck.symm.trans hk
      injection this
    rwa [this] at hk'
  have hmemU : ∀ t ∈ scores.map Prod.fst, ∀ k, classifyTag t = Except.ok k →
      k ∈ (List.range 5).filter (fun a => decide (a ∈ ks)) := by
    intro t ht k hk
    refine List.mem_filter.2 ⟨List.mem_range.2 (classifyTag_lt5 t k hk), ?_⟩
    simpa using hmem t ht k hk
  have hlen : 1 < ((List.range 5).filter (fun a => decide (a ∈ ks))).length :=
    one_lt_length_of_two_mem hne (hmemU t1 ht1 k1 hk1) (hmemU t2 ht2 k2 hk2)
  have hcheck : _check_scores_kind (scores.map Prod.fst) =
      Except.error (PyErr.exception (mixedMsg ((List.range 5).filter (fun a => decide (a ∈ ks))))) := by
    unfold _check_scores_kind
    rw [hks]
    simp only [if_pos hlen]
  refine ⟨mixedMsg ((List.range 5).filter (fun a => decide (a ∈ ks))), ?_, ?_⟩
  · simp only [plutchik, hcheck]
  · intro t ht k hk
    exact mixedMsg_names_aux _ (List.mem_sublists.2 (List.filter_sublist _)) k (hmemU t ht k hk)

/-- Witness for C2 on the mapping [joy, love]: an emotion mixed with a
primary dyad. -/
theorem mixed_kind_error_names_offending_kinds_witness :
    ∃ msg, plutchik [("joy", Score.scalar 1), ("love", Score.scalar 1)] true none =
        ([], some (PyErr.exception msg)) ∧
      ∀ t ∈ ([("joy", Score.scalar 1), ("love", Score.scalar 1)].map Prod.fst), ∀ k,
        classifyTag t = Except.ok k → (kindName k).data <:+: msg.data :=
  mixed_kind_error_names_offending_kinds [("joy", Score.scalar 1), ("love", Score.scalar 1)]
    true none
    (by intro t ht
        simp only [List.map, List.mem_cons, List.not_mem_nil, or_false] at ht
        rcases ht with h | h <;> subst h <;> exact ⟨_, rfl⟩)
    ⟨"joy", by simp, "love", by simp, 0, 1, rfl, rfl, by decide⟩

/-- C3: for every scores mapping of a single kind (the dyad branch compares
its values with numbers, so per the data model its values are scalars),
plutchik raises a score-validation Exception naming an offending key
whenever some entry is a scalar outside [0, 1] or a 3-tuple with a negative
component or a component sum above 1; when every entry is a scalar in
[0, 1] or a 3-tuple of nonnegative components summing to at most 1, no
exception is raised. -/
theorem single_kind_score_validation (scores : List (String × Score)) (sc : Bool)
    (nrm : Option ℚ) (b : Bool)
    (hkind : _check_scores_kind (scores.map Prod.fst) = Except.ok b)
    (hscalar : b = false → ∀ p ∈ scores, ∃ v, p.2 = Score.scalar v) :
    ((∃ p ∈ plutchikEntries scores b, scoreInvalid p.2) →
      ∃ k v msg, (k, v) ∈ plutchikEntries scores b ∧ scoreInvalid v ∧
        (plutchik scores sc nrm).2 = some (PyErr.exception msg) ∧ k.data <:+: msg.data) ∧
    ((∀ p ∈ plutchikEntries scores b, ¬ scoreInvalid p.2) →
      (plutchik scores sc nrm).2 = none) := by
  have hne := check_ok_ne_nil _ _ hkind
  have hsne : scores ≠ [] := fun h => hne (by simp [h])
  cases b with
  | true =>
    have hld : (lowerDict scores).isEmpty = false := by
      cases hl : lowerDict scores with
      | nil => exact absurd hl (lowerDict_ne_nil scores hsne)
      | cons q t => rfl
    have hred : (plutchik scores sc nrm).2 = (emoLoop sc (lowerDict scores)).2 := by
      simp only [plutchik, hkind, if_true, hld, Bool.false_eq_true, if_false]
    simp only [plutchikEntries, if_true]
    constructor
    · intro hx
      obtain ⟨k, v, msg, hm, hiv, herr, hinf⟩ := emoLoop_err sc (lowerDict scores) hx
      exact ⟨k, v, msg, hm, hiv, hred.trans herr, hinf⟩
    · intro hx
      exact hred.trans (emoLoop_ok sc (lowerDict scores) hx)
  | false =>
    have hse : scores.isEmpty = false := by
      cases scores with
      | nil => exact absurd rfl hsne
      | cons q t => rfl
    have hsc := hscalar rfl
    have hred : (plutchik scores sc nrm).2 = (dyadLoop sc scores).2 := by
      simp only [plutchik, hkind, Bool.false_eq_true, if_false, hse]
      cases hdl : (dyadLoop sc scores).2 with
      | some e => simp [hdl]
      | none => simp [hdl]
    simp only [plutchikEntries, Bool.false_eq_true, if_false]
    constructor
    · intro hx
      obtain ⟨k, v, msg, hm, hiv, herr, hinf⟩ := dyadLoop_err sc scores hsc hx
      exact ⟨k, v, msg, hm, hiv, hred.trans herr, hinf⟩
    · intro hx
      exact hred.trans (dyadLoop_ok sc scores hsc hx)

/-- Witness for C3 on the mapping [joy := 2]: a scalar above 1 is rejected
with a message naming the key. -/
theorem single_kind_score_validation_witness :
    _check_scores_kind ([("joy", Score.scalar 2)].map Prod.fst) = Except.ok true ∧
    (((∃ p ∈ plutchikEntries [("joy", Score.scalar 2)] true, scoreInvalid p.2) →
      ∃ k v msg, (k, v) ∈ plutchikEntries [("joy", Score.scalar 2)] true ∧ scoreInvalid v ∧
        (plutchik [("joy", Score.scalar 2)] true none).2 = some (PyErr.exception msg) ∧
        k.data <:+: msg.data) ∧
    ((∀ p ∈ plutchikEntries [("joy", Score.scalar 2)] true, ¬ scoreInvalid p.2) →
      (plutchik [("joy", Score.scalar 2)] true none).2 = none)) :=
  ⟨rfl, single_kind_score_validation [("joy", Score.scalar 2)] true none true rfl
    (fun h => absurd h (by decide))⟩

/-- C4: for every index i below 8, emo_params maps the i-th emotion in the
canonical order joy, trust, fear, surprise, sadness, disgust, anger,
anticipation to the angle -45 * i, and every name outside the eight makes
emo_params raise the unknown-emotion Exception. -/
theorem emo_params_canonical_angles :
    (∀ i, i < 8 → emoAngle (canonicalEmotions.getD i "") = some ((-45) * (i : ℚ))) ∧
    (∀ e, e ∉ canonicalEmotions → ∃ m, emo_params e = Except.error (PyErr.exception m)) := by
  constructor
  · intro i hi
    interval_cases i <;> norm_num [emoAngle, emo_params, canonicalEmotions]
  · intro e he
    simp only [canonicalEmotions, List.mem_cons, List.not_mem_nil, or_false, not_or] at he
    obtain ⟨h1, h2, h3, h4, h5, h6, h7, h8⟩ := he
    unfold emo_params
    split
    all_goals first | (exact ⟨_, rfl⟩) | simp_all

/-- Witness for C4 at index 2 (fear, angle -90) and at the unknown name
serenity. -/
theorem emo_params_canonical_angles_witness :
    emoAngle (canonicalEmotions.getD 2 "") = some ((-45) * ((2 : ℕ) : ℚ)) ∧
    (∃ m, emo_params "serenity" = Except.error (PyErr.exception m)) :=
  ⟨emo_params_canonical_angles.1 2 (by norm_num),
    emo_params_canonical_angles.2 "serenity" (by decide)⟩

/-- C5 counterexample: bittersweetness and ambivalence are both members of
the opposite family (level 4) of dyad_params, their assigned angles are 0
and -45, and these are 45 degrees apart, not 90; so the frozen claim that
the angles of the opposite family are spaced 90 degrees apart is false. -/
theorem opposite_dyad_angles_not_90_apart :
    dyadLevel "bittersweetness" = some 4 ∧ dyadLevel "ambivalence" = some 4 ∧
    dyadAngle "bittersweetness" = some 0 ∧ dyadAngle "ambivalence" = some (-45) ∧
    (0 : ℚ) - (-45) ≠ 90 ∧ (-45 : ℚ) - (0 : ℚ) ≠ -90 :=
  ⟨by decide, by decide, by decide, by decide, by norm_num, by norm_num⟩

/-- C5 (amended): the opposite family (level 4) of dyad_params has exactly
the four members bittersweetness, ambivalence, frozenness and confusion,
and their assigned angles 0, -45, -90, -135 are spaced 45 degrees apart
(not 90). -/
theorem opposite_dyads_four_members_spaced_45 :
    (∀ d, dyadLevel d = some 4 ↔
      (d = "bittersweetness" ∨ d = "ambivalence" ∨ d = "frozenness" ∨ d = "confusion")) ∧
    [dyadAngle "bittersweetness", dyadAngle "ambivalence", dyadAngle "frozenness",
      dyadAngle "confusion"] = [some 0, some (-45), some (-90), some (-135)] ∧
    (0 : ℚ) - (-45) = 45 ∧ (-45 : ℚ) - (-90) = 45 ∧ (-90 : ℚ) - (-135) = 45 := by
  refine ⟨?_, by decide, by norm_num, by norm_num, by norm_num⟩
  intro d
  constructor
  · intro h
    unfold dyadLevel at h
    cases hd : dyad_params d with
    | error e => rw [hd] at h; simp at h
    | ok p =>
      rw [hd] at h
      injection h with h2
      exact dyad_params_level4 d p hd h2
  · intro h
    rcases h with h | h | h | h <;> subst h <;> decide

/-- C6 counterexample: the same two valid emotion entries given in the two
possible input orders make plutchik dispatch the petal and spine drawing in
the two different input orders (trust before joy, then joy before trust),
so the dispatch order is the input order of the mapping, not the fixed
canonical registry order, and it is not independent of the input order. -/
theorem dispatch_not_registry_order :
    (plutchik [("trust", Score.scalar 1), ("joy", Score.scalar 1)] true none).1 =
      [Op.polarCoords, Op.neutralCircle,
       Op.spineEmotion "trust", Op.petalEmotion "trust", Op.border "trust",
       Op.spineEmotion "joy", Op.petalEmotion "joy", Op.border "joy"] ∧
    (plutchik [("joy", Score.scalar 1), ("trust", Score.scalar 1)] true none).1 =
      [Op.polarCoords, Op.neutralCircle,
       Op.spineEmotion "joy", Op.petalEmotion "joy", Op.border "joy",
       Op.spineEmotion "trust", Op.petalEmotion "trust", Op.border "trust"] ∧
    (plutchik [("trust", Score.scalar 1), ("joy", Score.scalar 1)] true none).1 ≠
      (plutchik [("joy", Score.scalar 1), ("trust", Score.scalar 1)] true none).1 := by
  decide

/-- C6 (amended): for every scores mapping that plutchik completes without
an exception, the drawing operations are the background and neutral circle
followed by the per-entry operations concatenated in the order the entries
appear in the input mapping (for emotions, the lowercased dict in insertion
order; for dyads, the input order), with the level mark and ghost track
appended for dyads — the dispatch order is the input order, not the
canonical registry order. -/
theorem dispatch_follows_input_order (scores : List (String × Score)) (sc : Bool)
    (nrm : Option ℚ) (b : Bool)
    (hkind : _check_scores_kind (scores.map Prod.fst) = Except.ok b)
    (hok : (plutchik scores sc nrm).2 = none) :
    (plutchik scores sc nrm).1 =
      ((if sc then [Op.polarCoords] else []) ++ [Op.neutralCircle]) ++
      concatMap (entryOps b sc) (plutchikEntries scores b) ++
      (if b then [] else [Op.levelMark, Op.ghostCircle]) := by
  have hne := check_ok_ne_nil _ _ hkind
  have hsne : scores ≠ [] := fun h => hne (by simp [h])
  cases b with
  | true =>
    have hld : (lowerDict scores).isEmpty = false := by
      cases hl : lowerDict scores with
      | nil => exact absurd hl (lowerDict_ne_nil scores hsne)
      | cons q t => rfl
    have h2 : (plutchik scores sc nrm).2 = (emoLoop sc (lowerDict scores)).2 := by
      simp only [plutchik, hkind, if_true, hld, Bool.false_eq_true, if_false]
    simp only [plutchik, hkind, if_true, hld, Bool.false_eq_true, if_false,
      plutchikEntries, List.append_nil]
    rw [concatMap_entryOps_true, ← emoLoop_ops sc (lowerDict scores) (h2 ▸ hok)]
  | false =>
    have hse : scores.isEmpty = false := by
      cases scores with
      | nil => exact absurd rfl hsne
      | cons q t => rfl
    have h2 : (plutchik scores sc nrm).2 = (dyadLoop sc scores).2 := by
      simp only [plutchik, hkind, Bool.false_eq_true, if_false, hse]
      cases hdl : (dyadLoop sc scores).2 with
      | some e => simp [hdl]
      | none => simp [hdl]
    have hdl : (dyadLoop sc scores).2 = none := h2 ▸ hok
    simp only [plutchik, hkind, Bool.false_eq_true, if_false, hse, hdl, plutchikEntries]
    rw [← dyadLoop_ops sc scores hdl]

/-- Witness for C6 (amended) on the mapping [anger, joy], given against
canonical order. -/
theorem dispatch_follows_input_order_witness :
    _check_scores_kind ([("anger", Score.scalar 1), ("joy", Score.scalar 1)].map Prod.fst) =
      Except.ok true ∧
    (plutchik [("anger", Score.scalar 1), ("joy", Score.scalar 1)] true none).2 = none ∧
    (plutchik [("anger", Score.scalar 1), ("joy", Score.scalar 1)] true none).1 =
      ((if true then [Op.polarCoords] else []) ++ [Op.neutralCircle]) ++
      concatMap (entryOps true true)
        (plutchikEntries [("anger", Score.scalar 1), ("joy", Score.scalar 1)] true) ++
      (if true then [] else [Op.levelMark, Op.ghostCircle]) :=
  ⟨rfl, rfl,
    dispatch_follows_input_order [("anger", Score.scalar 1), ("joy", Score.scalar 1)]
      true none true rfl rfl⟩

/-- C7 counterexample: for the dyad love with score 0 (coordinates shown),
plutchik still draws the dyad spine and the outer border for that entry, so
rendering the zero-score dyad entry is not skipped entirely. -/
theorem zero_dyad_still_draws_shapes :
    plutchik [("love", Score.scalar 0)] true none =
      ([Op.polarCoords, Op.neutralCircle, Op.spineDyad "love", Op.border "love",
        Op.levelMark, Op.ghostCircle], none) ∧
    Op.spineDyad "love" ∈ (plutchik [("love", Score.scalar 0)] true none).1 ∧
    Op.border "love" ∈ (plutchik [("love", Score.scalar 0)] true none).1 := by decide

/-- C7 (amended): for a dyad entry with score 0, only the bicolor petal
fill of _petal_shape_dyad is skipped; _draw_dyad_petal still draws the
outer border, and also the dyad spine when coordinates are shown. -/
theorem zero_dyad_skips_only_fill : ∀ (dyad : String),
    _draw_dyad_petal dyad 0 true = [Op.spineDyad dyad, Op.border dyad] ∧
    _draw_dyad_petal dyad 0 false = [Op.border dyad] := by
  intro dyad
  constructor <;> simp [_draw_dyad_petal]

/-- C8 counterexample: at score 1, angle 0, height/width ratio 1 and offset
0.15, the petal lens of _petal_shape_emotion contains the true origin
(0, 0), so the lens does touch the origin and its innermost point is not on
the boundary of the neutral disk of radius 0.15. -/
theorem petal_lens_touches_origin :
    ((0 : ℝ), (0 : ℝ)) ∈ _petal_shape_emotion 1 0 1 (15 / 100) none := by
  rw [mem_petal_shape]
  constructor
  · nth_rewrite 1 [show ((0 : ℝ), (0 : ℝ)) = _rotate_point (0, 0) 0 from (rotate_origin 0).symm]
    rw [sqDist_rotate]
    unfold sqDist
    dsimp only
    apply le_of_eq
    ring
  · nth_rewrite 1 [show ((0 : ℝ), (0 : ℝ)) = _rotate_point (0, 0) 0 from (rotate_origin 0).symm]
    rw [sqDist_rotate]
    unfold sqDist
    dsimp only
    apply le_of_eq
    ring

/-- C8 (amended): for every score, angle, height/width ratio, offset and
normalization, the petal lens contains the true origin (0, 0) — it lies on
the boundary circle of both disks, whose common radius equals their
distance from the origin; petals only appear to start at the rim of the
central neutral disk because that white disk is painted above the petal
fills at a higher z-order. -/
theorem petal_lens_contains_origin (score angle hwr offset : ℝ) (nrm : Option ℝ) :
    (0, 0) ∈ _petal_shape_emotion score angle hwr offset nrm := by
  rw [petal_shape_applyNorm, mem_petal_shape]
  constructor
  · nth_rewrite 1 [show ((0 : ℝ), (0 : ℝ)) = _rotate_point (0, 0) angle from
      (rotate_origin angle).symm]
    rw [sqDist_rotate]
    unfold sqDist
    dsimp only
    apply le_of_eq
    ring
  · nth_rewrite 1 [show ((0 : ℝ), (0 : ℝ)) = _rotate_point (0, 0) angle from
      (rotate_origin angle).symm]
    rw [sqDist_rotate]
    unfold sqDist
    dsimp only
    apply le_of_eq
    ring

/-- C9: for every score, angle, height/width ratio, offset and positive
normalization reference n, the petal lens, the outer border outline and the
intensity-band region produced with normalize = n from a score (or band
radius) equal the ones produced with normalization disabled from the value
already divided by n: the division happens before any geometric
construction. -/
theorem normalize_divides_before_geometry (s a w o n radius : ℝ) (petal : Set (ℝ × ℝ))
    (hn : 0 < n) :
    _petal_shape_emotion s a w o (some n) = _petal_shape_emotion (s / n) a w o none ∧
    _outer_border s a w o (some n) = _outer_border (s / n) a w o none ∧
    _petal_circle petal radius o (some n) = _petal_circle petal (radius / n) o none := by
  have hn0 : n ≠ 0 := ne_of_gt hn
  have happ : ∀ x : ℝ, applyNormalizeR (some n) x = x / n := by
    intro x
    simp [applyNormalizeR, hn0]
  refine ⟨?_, ?_, ?_⟩
  · simp only [_petal_shape_emotion, applyNormalizeR_none, happ]
  · simp only [_outer_border, applyNormalizeR_none, happ]
  · by_cases hr : radius = 0
    · subst hr
      rw [zero_div]
      simp [_petal_circle]
    · have hr2 : radius / n ≠ 0 := div_ne_zero hr hn0
      simp only [_petal_circle, if_neg hr, if_neg hr2, applyNormalizeR_none, happ]

/-- Witness for C9 at n = 2. -/
theorem normalize_divides_before_geometry_witness :
    (0 : ℝ) < 2 ∧
    (_petal_shape_emotion 1 30 1 (15 / 100) (some 2) =
        _petal_shape_emotion (1 / 2) 30 1 (15 / 100) none ∧
      _outer_border 1 30 1 (15 / 100) (some 2) = _outer_border (1 / 2) 30 1 (15 / 100) none ∧
      _petal_circle Set.univ (3 / 10) (15 / 100) (some 2) =
        _petal_circle Set.univ (3 / 10 / 2) (15 / 100) none) :=
  ⟨by norm_num, normalize_divides_before_geometry 1 30 1 (15 / 100) 2 (3 / 10) Set.univ
    (by norm_num)⟩

/-- C10: for the empty scores mapping, plutchik raises the IndexError coming
from kinds[0] in _check_scores_kind (not a named validation Exception)
before any shape is drawn on the canvas: the operation list is empty. -/
theorem empty_scores_raises_index_error : ∀ (sc : Bool) (nrm : Option ℚ),
    plutchik [] sc nrm = ([], some PyErr.indexError) := by
  intro sc nrm
  rfl
